import Mathlib

/-!
Shallow embedding of `sanity_checks/sanity_checks_main.py` from the
PerturbationSaliencyEvaluation repository, together with theorems that
settle the frozen claims about that script.

Relevance maps (numpy arrays) are embedded as flat lists of rationals.
External collaborators (the keras model, the gym environment wrapper, the
explanation generators of `applications.atari.explanation`, and the
scipy/skimage statistics routines) are parameters of the embedding: the
script treats them as opaque capabilities, and so do we.
-/

namespace SanityChecks

/-- Embedding of `numpy.min` on a nonempty array of rationals
(`image.min()` in the source). The empty case is unreachable in the
script and mapped to `0`. -/
def listMin : List ℚ → ℚ
  | [] => 0
  | [x] => x
  | x :: y :: t => min x (listMin (y :: t))

/-- Embedding of `numpy.max` on a nonempty array of rationals
(`image.max()` in the source). The empty case is unreachable in the
script and mapped to `0`. -/
def listMax : List ℚ → ℚ
  | [] => 0
  | [x] => x
  | x :: y :: t => max x (listMax (y :: t))

/-- Tail of the embedding of `numpy.argmax`: index of the first strict
maximum, scanning left to right. -/
def argmaxGo : Nat → Nat → ℚ → List ℚ → Nat
  | _, best, _, [] => best
  | i, best, bestVal, x :: t =>
    if bestVal < x then argmaxGo (i + 1) i x t else argmaxGo (i + 1) best bestVal t

/-- Embedding of `numpy.argmax` (first index attaining the maximum), used
for `action = np.argmax(np.squeeze(output))` in `sanity_check`. -/
def argmax : List ℚ → Nat
  | [] => 0
  | x :: t => argmaxGo 1 0 x t

/-- Embedding of `normalise_image` (lines 80-92 of the source):
subtract the minimum, then divide by the maximum unless that maximum is
zero. -/
def normalise_image (image : List ℚ) : List ℚ :=
  let m := listMin image
  let image1 := image.map (fun x => x - m)
  let mx := listMax image1
  if mx ≠ 0 then image1.map (fun x => x / mx) else image1

/-- Spec-side reading of min-max normalization, following the spec words
"Both maps are independently min-max normalized to the [0,1] range
[...] (if max equals 0 after subtracting min, normalization is skipped
to avoid division by zero)". Used only to be compared with
`normalise_image`. -/
def minMaxNormalizeSpec (l : List ℚ) : List ℚ :=
  let shifted := l.map (fun x => x - listMin l)
  if listMax shifted = 0 then shifted else shifted.map (fun x => x / listMax shifted)

/-- The external statistics collaborators used by `calc_sim`:
`scipy.stats.spearmanr` and `scipy.stats.pearsonr` (each returning a
statistic/p-value pair), `skimage.metrics.structural_similarity` on
flattened maps with `data_range=1`, and `skimage.feature.hog` with
`pixels_per_cell=(3,3)`.  They are opaque parameters of the embedding. -/
structure Metrics where
  spearmanr : List ℚ → List ℚ → ℚ × ℚ
  ssim : List ℚ → List ℚ → ℚ
  hog : List ℚ → List ℚ
  pearsonr : List ℚ → List ℚ → ℚ × ℚ

/-- Embedding of `calc_sim` (lines 135-164 of the source): normalize both
maps, build the complement `1 - random_relevance` of the normalized
candidate, compute each of the three statistics against candidate and
complement, keep the larger of each pair, and append the three scores to
the three accumulator lists. -/
def calc_sim (M : Metrics) (learned_relevance random_relevance : List ℚ)
    (pearson_list ssim_list spearman_list : List ℚ) :
    List ℚ × List ℚ × List ℚ :=
  let learned := normalise_image learned_relevance
  let rand := normalise_image random_relevance
  let neg_rand := rand.map (fun x => 1 - x)
  let spearman0 := (M.spearmanr rand learned).1
  let testSp := (M.spearmanr neg_rand learned).1
  let spearman := max spearman0 testSp
  let ssim_val0 := M.ssim rand learned
  let testSs := M.ssim neg_rand learned
  let ssim_val := max ssim_val0 testSs
  let random_hog := M.hog rand
  let learned_hog := M.hog learned
  let pearson0 := (M.pearsonr random_hog learned_hog).1
  let neg_random_hog := M.hog neg_rand
  let testPe := (M.pearsonr neg_random_hog learned_hog).1
  let pearson := max pearson0 testPe
  (pearson_list ++ [pearson], ssim_list ++ [ssim_val], spearman_list ++ [spearman])

/-- The pearson score `calc_sim` appends: HOG-feature Pearson correlation
maximized over candidate versus complement. -/
def pearsonScore (M : Metrics) (learned_relevance random_relevance : List ℚ) : ℚ :=
  max (M.pearsonr (M.hog (normalise_image random_relevance))
        (M.hog (normalise_image learned_relevance))).1
      (M.pearsonr (M.hog ((normalise_image random_relevance).map (fun x => 1 - x)))
        (M.hog (normalise_image learned_relevance))).1

/-- The ssim score `calc_sim` appends: structural similarity maximized
over candidate versus complement. -/
def ssimScore (M : Metrics) (learned_relevance random_relevance : List ℚ) : ℚ :=
  max (M.ssim (normalise_image random_relevance) (normalise_image learned_relevance))
      (M.ssim ((normalise_image random_relevance).map (fun x => 1 - x))
        (normalise_image learned_relevance))

/-- The spearman score `calc_sim` appends: Spearman rank correlation of
the flattened maps maximized over candidate versus complement. -/
def spearmanScore (M : Metrics) (learned_relevance random_relevance : List ℚ) : ℚ :=
  max (M.spearmanr (normalise_image random_relevance)
        (normalise_image learned_relevance)).1
      (M.spearmanr ((normalise_image random_relevance).map (fun x => 1 - x))
        (normalise_image learned_relevance)).1

lemma calc_sim_eq (M : Metrics) (l r ps ss sp : List ℚ) :
    calc_sim M l r ps ss sp =
      (ps ++ [pearsonScore M l r], ss ++ [ssimScore M l r], sp ++ [spearmanScore M l r]) := rfl

/-! ### A store model for numpy array allocation

`normalise_image` rebinds its local `image` to freshly allocated arrays
(`image - image.min()` and `image / image.max()` both allocate); it never
writes into its argument.  To state that, we give a second, store-passing
embedding: a `Store` is the list of allocated arrays, and a `Ref` indexes
into it. -/

/-- Reference into the array store. -/
abbrev Ref := Nat

/-- The heap of allocated numpy arrays. -/
abbrev Store := List (List ℚ)

/-- Allocate a fresh array holding `v`; returns the grown store and the
fresh reference. -/
def alloc (s : Store) (v : List ℚ) : Store × Ref := (s ++ [v], s.length)

/-- Read the array behind a reference. -/
def readRef (s : Store) (r : Ref) : List ℚ := (s[r]?).getD []

/-- Store-passing embedding of `normalise_image`: `image - image.min()`
allocates one fresh array, and `image / image.max()` (when taken)
allocates another; the argument array is never written to. -/
def normalise_image_st (s : Store) (r : Ref) : Store × Ref :=
  let v := readRef s r
  let shifted := v.map (fun x => x - listMin v)
  let a1 := alloc s shifted
  if listMax shifted ≠ 0 then alloc a1.1 (shifted.map (fun x => x / listMax shifted))
  else a1

/-- Store-passing embedding of `calc_sim`: both arguments are normalized
into fresh arrays, the complement `1 - random_relevance` is a third fresh
array, and the input arrays are left untouched in the store. -/
def calc_sim_st (M : Metrics) (s : Store) (learnedR randR : Ref)
    (pearson_list ssim_list spearman_list : List ℚ) :
    Store × (List ℚ × List ℚ × List ℚ) :=
  let a1 := normalise_image_st s learnedR
  let a2 := normalise_image_st a1.1 randR
  let a3 := alloc a2.1 ((readRef a2.1 a2.2).map (fun x => 1 - x))
  let learned := readRef a3.1 a1.2
  let rand := readRef a3.1 a2.2
  let neg_rand := readRef a3.1 a3.2
  let spearman := max (M.spearmanr rand learned).1 (M.spearmanr neg_rand learned).1
  let ssim_val := max (M.ssim rand learned) (M.ssim neg_rand learned)
  let pearson := max (M.pearsonr (M.hog rand) (M.hog learned)).1
    (M.pearsonr (M.hog neg_rand) (M.hog learned)).1
  (a3.1, (pearson_list ++ [pearson], ssim_list ++ [ssim_val], spearman_list ++ [spearman]))

/-! ### The keras model and the layer-cascade randomizer

A keras model is embedded as its weight assignment: a function from the
structural layer index to the pair (kernel weights, bias weights).  The
TensorFlow re-initialization performed by `init_layer` draws fresh
weights from the original initializer; those draws are opaque external
randomness and enter the embedding as a parameter `f : Fin 5 →
LayerWeights`, one draw per derivation. -/

/-- Kernel and bias weight arrays of one layer
(`layer.get_weights()[0]` and `layer.get_weights()[1]`). -/
abbrev LayerWeights := List ℚ × List ℚ

/-- A keras model, seen as its per-layer weights. -/
abbrev KModel := Nat → LayerWeights

/-- Embedding of `copy_model` (lines 115-123): `clone_model` plus
`set_weights` yields a model with identical weights everywhere. -/
def copy_model (m : KModel) : KModel := m

/-- Embedding of `init_layer` (lines 104-113): the layer at `idx` is
re-initialized with the original initializer; the fresh draw is the
parameter `fresh`. -/
def init_layer (m : KModel) (idx : Nat) (fresh : LayerWeights) : KModel :=
  fun i => if i = idx then fresh else m i

/-- `model1 = copy_model(model)` with layer index 6 re-initialized
(lines 219-222). -/
def model1 (m : KModel) (f : Fin 5 → LayerWeights) : KModel :=
  init_layer (copy_model m) 6 (f 0)

/-- `model2 = copy_model(model1)` with layer index 5 re-initialized
(lines 226-229). -/
def model2 (m : KModel) (f : Fin 5 → LayerWeights) : KModel :=
  init_layer (copy_model (model1 m f)) 5 (f 1)

/-- `model3 = copy_model(model2)` with layer index 3 re-initialized
(lines 233-236). -/
def model3 (m : KModel) (f : Fin 5 → LayerWeights) : KModel :=
  init_layer (copy_model (model2 m f)) 3 (f 2)

/-- `model4 = copy_model(model3)` with layer index 2 re-initialized
(lines 240-243). -/
def model4 (m : KModel) (f : Fin 5 → LayerWeights) : KModel :=
  init_layer (copy_model (model3 m f)) 2 (f 3)

/-- `model5 = copy_model(model4)` with layer index 1 re-initialized
(lines 247-250). -/
def model5 (m : KModel) (f : Fin 5 → LayerWeights) : KModel :=
  init_layer (copy_model (model4 m f)) 1 (f 4)

/-- The variant chain: variant 0 is the original model, variants 1-5 are
`model1` .. `model5`. -/
def variantChain (m : KModel) (f : Fin 5 → LayerWeights) : Nat → KModel
  | 0 => m
  | 1 => model1 m f
  | 2 => model2 m f
  | 3 => model3 m f
  | 4 => model4 m f
  | _ => model5 m f

/-- The hard-coded order in which layers are re-initialized. -/
def layerOrder : List Nat := [6, 5, 3, 2, 1]

/-- Layers that have been re-initialized in variant `k`. -/
def randomizedLayers (k : Nat) : List Nat := layerOrder.take k

/-- The layer targeted by derivation `k` (for `1 ≤ k ≤ 5`). -/
def targetLayer (k : Nat) : Nat := layerOrder.getD (k - 1) 0

/-- Embedding of `check_models` (lines 126-133): for every layer index
`i` in `range(1,7)` with `i != 4`, print whether the kernel weights and
whether the bias weights of the two models coincide.  The returned list
is the sequence of console outputs; the function is total and raises
nothing. -/
def check_models (m1 m : KModel) : List (Nat × Bool × Bool) :=
  ((List.range' 1 6).filter (fun i => i ≠ 4)).map (fun i =>
    (i, decide ((m1 i).1 = (m i).1), decide ((m1 i).2 = (m i).2)))

/-! ### The episode loop of `sanity_check`

The environment wrapper, the trained model and the explanation
generators are external collaborators; they enter the embedding as the
fields of `RunParams`.  `σ` is the environment state, `μ` the type of
stacked frames, `Msk` the type of RISE sampling masks.  The instrumented
trace (`Event`) records, in program order, every explanation comparison
(with the state and action it received) and every `wrapper.step` call. -/

/-- State of an `explainer` object as far as the script touches it: the
`rise_masks` attribute and the `masks_generated` flag. -/
structure AnalyzerState (Msk : Type) where
  rise_masks : Option Msk
  masks_generated : Bool

/-- One observable event of the episode loop: a saliency comparison for
one comparator (carrying the input state, the target action and the
comparator label), an environment advancement by `wrapper.step`, or the
RISE mask generation-and-sharing block. -/
inductive Event (μ : Type) where
  | compare (i : Nat) (state : μ) (action : Nat) (label : Nat)
  | envStep (i : Nat) (action : Nat)
  | maskShare (i : Nat)

/-- The external collaborators and constants of one `sanity_check` run. -/
structure RunParams (σ μ Msk : Type) where
  /-- the `approach` argument -/
  approach : String
  /-- the `game` argument -/
  game : String
  /-- `wrapper.step`: current state and action to next state and stacked frames -/
  stepFn : σ → Nat → σ × μ
  /-- `model.predict` on the batch-expanded frames, squeezed to a flat output -/
  predict : μ → List ℚ
  /-- `og_saliency_fn(my_input, neuron_selection=action)`, squeezed -/
  ogSaliency : μ → Nat → List ℚ
  /-- `saliency_fn_k(my_input, neuron_selection=action)`, squeezed, for variant `k+1` -/
  varSaliency : Fin 5 → μ → Nat → List ℚ
  /-- `np.random.rand(84, 84)` drawn at loop index `i` -/
  randUniform : Nat → List ℚ
  /-- `np.random.normal(size=(84, 84))` drawn at loop index `i` -/
  randGaussian : Nat → List ℚ
  /-- `env.action_space.sample()` drawn at loop index `i` -/
  sampleAction : Nat → Nat
  /-- environment state after `wrapper.reset` / `wrapper.fixed_reset` -/
  env0 : σ
  /-- default frames (the local `stacked_frames` is only read after it was assigned) -/
  frames0 : μ
  /-- `explainer(model)` state at construction -/
  ogAnalyzer0 : AnalyzerState Msk
  /-- `explainer(model_k)` state at construction, for variant `k+1` -/
  varAnalyzer0 : Fin 5 → AnalyzerState Msk
  /-- effect of the warm-up `og_saliency_fn(stacked_frames)` call on the
  original analyzer (RISE generates its masks there) -/
  afterWarmOg : AnalyzerState Msk → AnalyzerState Msk
  /-- the external statistics routines -/
  metrics : Metrics

/-- The mutable locals of `sanity_check` that the loop touches, plus the
instrumented event trace. -/
structure LoopState (σ μ Msk : Type) where
  env : σ
  frames : Option μ
  ogAnalyzer : AnalyzerState Msk
  analyzers : Fin 5 → AnalyzerState Msk
  pearson_list : List ℚ
  ssim_list : List ℚ
  spearman_list : List ℚ
  model_list : List Nat
  action_list : List Nat
  events : List (Event μ)

/-- One comparator block of the policy-driven branch (lines 367-409):
generate the candidate map, `calc_sim` against the original map, append
the chosen action and the comparator label. -/
def comparatorBlock {σ μ Msk : Type} (M : Metrics) (i : Nat) (frames : μ)
    (action : Nat) (label : Nat) (og cand : List ℚ)
    (s : LoopState σ μ Msk) : LoopState σ μ Msk :=
  let r := calc_sim M og cand s.pearson_list s.ssim_list s.spearman_list
  { s with
    pearson_list := r.1
    ssim_list := r.2.1
    spearman_list := r.2.2
    action_list := s.action_list ++ [action]
    model_list := s.model_list ++ [label]
    events := s.events ++ [Event.compare i frames action label] }

/-- The warm-up action after the `fixed_start` overwrite (lines 331-338):
`1` for breakout, `0` otherwise. -/
def warmAction {σ μ Msk : Type} (p : RunParams σ μ Msk) : Nat :=
  if p.game = "breakout" then 1 else 0

/-- One warm-up iteration (`_ < 4`, lines 331-352 and 411): sample an
action, overwrite it through the `fixed_start` policy, run the RISE
mask-sharing block when `approach == "rise"` and `_ == 3`, then advance
the environment. -/
def warmStep {σ μ Msk : Type} (p : RunParams σ μ Msk) (i : Nat)
    (s : LoopState σ μ Msk) : LoopState σ μ Msk :=
  let action0 := p.sampleAction i
  let fixed_start := true
  let action := if fixed_start then (if p.game = "breakout" then 1 else 0) else action0
  let s1 :=
    if p.approach = "rise" ∧ i = 3 then
      let og' := p.afterWarmOg s.ogAnalyzer
      { s with
        ogAnalyzer := og'
        analyzers := fun _ => ⟨og'.rise_masks, true⟩
        events := s.events ++ [Event.maskShare i] }
    else s
  let e := p.stepFn s1.env action
  { s1 with env := e.1, frames := some e.2, events := s1.events ++ [Event.envStep i action] }

/-- One policy-driven iteration (`_ >= 4`, lines 353-411): predict with
the original model, pick the argmax action, generate the original map,
run the seven comparator blocks (variants 1-5, uniform baseline 6,
Gaussian baseline 7), then advance the environment with the chosen
action. -/
def policyStep {σ μ Msk : Type} (p : RunParams σ μ Msk) (i : Nat)
    (s : LoopState σ μ Msk) : LoopState σ μ Msk :=
  let frames := s.frames.getD p.frames0
  let action := argmax (p.predict frames)
  let og := p.ogSaliency frames action
  let s1 := comparatorBlock p.metrics i frames action 1 og (p.varSaliency 0 frames action) s
  let s2 := comparatorBlock p.metrics i frames action 2 og (p.varSaliency 1 frames action) s1
  let s3 := comparatorBlock p.metrics i frames action 3 og (p.varSaliency 2 frames action) s2
  let s4 := comparatorBlock p.metrics i frames action 4 og (p.varSaliency 3 frames action) s3
  let s5 := comparatorBlock p.metrics i frames action 5 og (p.varSaliency 4 frames action) s4
  let s6 := comparatorBlock p.metrics i frames action 6 og (p.randUniform i) s5
  let s7 := comparatorBlock p.metrics i frames action 7 og (p.randGaussian i) s6
  let e := p.stepFn s7.env action
  { s7 with env := e.1, frames := some e.2, events := s7.events ++ [Event.envStep i action] }

/-- The body of `for _ in range(steps)`. -/
def loopBody {σ μ Msk : Type} (p : RunParams σ μ Msk)
    (s : LoopState σ μ Msk) (i : Nat) : LoopState σ μ Msk :=
  if i < 4 then warmStep p i s else policyStep p i s

/-- The loop state right before the first iteration: empty accumulator
lists, freshly constructed analyzers, reset environment. -/
def initState {σ μ Msk : Type} (p : RunParams σ μ Msk) : LoopState σ μ Msk :=
  ⟨p.env0, none, p.ogAnalyzer0, p.varAnalyzer0, [], [], [], [], [], []⟩

/-- The loop state after the first `n` iterations. -/
def runN {σ μ Msk : Type} (p : RunParams σ μ Msk) (n : Nat) : LoopState σ μ Msk :=
  (List.range n).foldl (loopBody p) (initState p)

/-- The whole episode loop: `steps = 1001` (line 176). -/
def sanity_check_run {σ μ Msk : Type} (p : RunParams σ μ Msk) : LoopState σ μ Msk :=
  runN p 1001

/-- The stacked frames read at the start of iteration `i`. -/
def stateAt {σ μ Msk : Type} (p : RunParams σ μ Msk) (i : Nat) : μ :=
  (runN p i).frames.getD p.frames0

/-- The action the original model chooses at policy iteration `i`. -/
def chosenAction {σ μ Msk : Type} (p : RunParams σ μ Msk) (i : Nat) : Nat :=
  argmax (p.predict (stateAt p i))

/-- The events iteration `i` emits. -/
def stepEvents {σ μ Msk : Type} (p : RunParams σ μ Msk) (i : Nat) : List (Event μ) :=
  if i < 4 then
    (if p.approach = "rise" ∧ i = 3 then [Event.maskShare i] else [])
      ++ [Event.envStep i (warmAction p)]
  else
    (List.range 7).map (fun j => Event.compare i (stateAt p i) (chosenAction p i) (j + 1))
      ++ [Event.envStep i (chosenAction p i)]

/-- The seven candidate maps of one policy iteration, in comparator
order: variants 1-5, then the uniform baseline, then the Gaussian
baseline. -/
def candMapsOf {σ μ Msk : Type} (p : RunParams σ μ Msk) (frames : μ)
    (action : Nat) (i : Nat) : List (List ℚ) :=
  [p.varSaliency 0 frames action, p.varSaliency 1 frames action,
   p.varSaliency 2 frames action, p.varSaliency 3 frames action,
   p.varSaliency 4 frames action, p.randUniform i, p.randGaussian i]

/-- One row of the result table, fields in the column order
`{rand_layer, pearson, ssim, spearman, action}` of lines 414-419. -/
structure Row where
  rand_layer : Nat
  pearson : ℚ
  ssim : ℚ
  spearman : ℚ
  action : Nat

/-- Assembling the five equally long columns into rows (the DataFrame
construction of lines 414-419). -/
def zip5 : List Nat → List ℚ → List ℚ → List ℚ → List Nat → List Row
  | m :: ms, pe :: pes, sv :: svs, sp :: sps, a :: acts =>
    ⟨m, pe, sv, sp, a⟩ :: zip5 ms pes svs sps acts
  | _, _, _, _, _ => []

/-- The rows of the final DataFrame. -/
def resultRows {σ μ Msk : Type} (s : LoopState σ μ Msk) : List Row :=
  zip5 s.model_list s.pearson_list s.ssim_list s.spearman_list s.action_list

/-- Embedding of `sanity_check` as a whole: the CSV path
`os.path.join("results", game, _file_name)` together with the table
written there. -/
def sanity_check {σ μ Msk : Type} (p : RunParams σ μ Msk) (file_name : String) :
    String × List Row :=
  ("results" ++ "/" ++ p.game ++ "/" ++ file_name, resultRows (sanity_check_run p))

/-! ### Concrete instantiations used by the closed witnesses -/

/-- Degenerate statistics collaborators for closed instances. -/
def trivMetrics : Metrics := ⟨fun _ _ => (0, 0), fun _ _ => 0, fun l => l, fun _ _ => (0, 0)⟩

/-- A concrete, fully degenerate parameter record (approach "noise"). -/
def trivParams : RunParams Unit Unit Unit :=
  ⟨"noise", "pacman", fun _ _ => ((), ()), fun _ => [0], fun _ _ => [0],
   fun _ _ _ => [0], fun _ => [0], fun _ => [0], fun _ => 0, (), (),
   ⟨none, false⟩, fun _ => ⟨none, false⟩, fun a => a, trivMetrics⟩

/-- A concrete, fully degenerate parameter record (approach "rise"). -/
def trivRiseParams : RunParams Unit Unit Unit :=
  ⟨"rise", "breakout", fun _ _ => ((), ()), fun _ => [0], fun _ _ => [0],
   fun _ _ _ => [0], fun _ => [0], fun _ => [0], fun _ => 0, (), (),
   ⟨none, false⟩, fun _ => ⟨none, false⟩, fun _ => ⟨some (), true⟩, trivMetrics⟩

/-- A concrete keras model for closed instances. -/
def trivModel : KModel := fun _ => ([0], [0])

/-- Concrete initializer draws for closed instances, chosen to differ
from every weight of `trivModel`. -/
def trivFresh : Fin 5 → LayerWeights := fun _ => ([1], [0])

/-! ### Basic loop lemmas -/

section LoopLemmas

variable {σ μ Msk : Type}

lemma runN_zero (p : RunParams σ μ Msk) : runN p 0 = initState p := rfl

lemma runN_succ (p : RunParams σ μ Msk) (n : Nat) :
    runN p (n + 1) = loopBody p (runN p n) n := by
  simp [runN, List.range_succ, List.foldl_append]

lemma comparatorBlock_pearson (M : Metrics) (i : Nat) (fr : μ) (a lbl : Nat)
    (og cand : List ℚ) (s : LoopState σ μ Msk) :
    (comparatorBlock M i fr a lbl og cand s).pearson_list
      = s.pearson_list ++ [pearsonScore M og cand] := by
  simp [comparatorBlock, calc_sim_eq]

lemma comparatorBlock_ssim (M : Metrics) (i : Nat) (fr : μ) (a lbl : Nat)
    (og cand : List ℚ) (s : LoopState σ μ Msk) :
    (comparatorBlock M i fr a lbl og cand s).ssim_list
      = s.ssim_list ++ [ssimScore M og cand] := by
  simp [comparatorBlock, calc_sim_eq]

lemma comparatorBlock_spearman (M : Metrics) (i : Nat) (fr : μ) (a lbl : Nat)
    (og cand : List ℚ) (s : LoopState σ μ Msk) :
    (comparatorBlock M i fr a lbl og cand s).spearman_list
      = s.spearman_list ++ [spearmanScore M og cand] := by
  simp [comparatorBlock, calc_sim_eq]

lemma comparatorBlock_model (M : Metrics) (i : Nat) (fr : μ) (a lbl : Nat)
    (og cand : List ℚ) (s : LoopState σ μ Msk) :
    (comparatorBlock M i fr a lbl og cand s).model_list = s.model_list ++ [lbl] := rfl

lemma comparatorBlock_action (M : Metrics) (i : Nat) (fr : μ) (a lbl : Nat)
    (og cand : List ℚ) (s : LoopState σ μ Msk) :
    (comparatorBlock M i fr a lbl og cand s).action_list = s.action_list ++ [a] := rfl

lemma comparatorBlock_events (M : Metrics) (i : Nat) (fr : μ) (a lbl : Nat)
    (og cand : List ℚ) (s : LoopState σ μ Msk) :
    (comparatorBlock M i fr a lbl og cand s).events
      = s.events ++ [Event.compare i fr a lbl] := rfl

lemma comparatorBlock_frames (M : Metrics) (i : Nat) (fr : μ) (a lbl : Nat)
    (og cand : List ℚ) (s : LoopState σ μ Msk) :
    (comparatorBlock M i fr a lbl og cand s).frames = s.frames := rfl

lemma comparatorBlock_analyzers (M : Metrics) (i : Nat) (fr : μ) (a lbl : Nat)
    (og cand : List ℚ) (s : LoopState σ μ Msk) :
    (comparatorBlock M i fr a lbl og cand s).analyzers = s.analyzers := rfl

lemma comparatorBlock_ogAnalyzer (M : Metrics) (i : Nat) (fr : μ) (a lbl : Nat)
    (og cand : List ℚ) (s : LoopState σ μ Msk) :
    (comparatorBlock M i fr a lbl og cand s).ogAnalyzer = s.ogAnalyzer := rfl

lemma policyStep_model (p : RunParams σ μ Msk) (i : Nat) (s : LoopState σ μ Msk) :
    (policyStep p i s).model_list = s.model_list ++ [1, 2, 3, 4, 5, 6, 7] := by
  simp [policyStep, comparatorBlock_model, List.append_assoc]

lemma policyStep_action (p : RunParams σ μ Msk) (i : Nat) (s : LoopState σ μ Msk) :
    (policyStep p i s).action_list
      = s.action_list
        ++ List.replicate 7 (argmax (p.predict (s.frames.getD p.frames0))) := by
  simp [policyStep, comparatorBlock_action, List.append_assoc, List.replicate_succ]

lemma policyStep_pearson (p : RunParams σ μ Msk) (i : Nat) (s : LoopState σ μ Msk) :
    (policyStep p i s).pearson_list
      = s.pearson_list
        ++ (candMapsOf p (s.frames.getD p.frames0)
              (argmax (p.predict (s.frames.getD p.frames0))) i).map
            (fun c =>
              pearsonScore p.metrics
                (p.ogSaliency (s.frames.getD p.frames0)
                  (argmax (p.predict (s.frames.getD p.frames0)))) c) := by
  simp [policyStep, comparatorBlock_pearson, candMapsOf, List.append_assoc]

lemma policyStep_ssim (p : RunParams σ μ Msk) (i : Nat) (s : LoopState σ μ Msk) :
    (policyStep p i s).ssim_list
      = s.ssim_list
        ++ (candMapsOf p (s.frames.getD p.frames0)
              (argmax (p.predict (s.frames.getD p.frames0))) i).map
            (fun c =>
              ssimScore p.metrics
                (p.ogSaliency (s.frames.getD p.frames0)
                  (argmax (p.predict (s.frames.getD p.frames0)))) c) := by
  simp [policyStep, comparatorBlock_ssim, candMapsOf, List.append_assoc]

lemma policyStep_spearman (p : RunParams σ μ Msk) (i : Nat) (s : LoopState σ μ Msk) :
    (policyStep p i s).spearman_list
      = s.spearman_list
        ++ (candMapsOf p (s.frames.getD p.frames0)
              (argmax (p.predict (s.frames.getD p.frames0))) i).map
            (fun c =>
              spearmanScore p.metrics
                (p.ogSaliency (s.frames.getD p.frames0)
                  (argmax (p.predict (s.frames.getD p.frames0)))) c) := by
  simp [policyStep, comparatorBlock_spearman, candMapsOf, List.append_assoc]

lemma policyStep_events (p : RunParams σ μ Msk) (i : Nat) (s : LoopState σ μ Msk) :
    (policyStep p i s).events
      = s.events
        ++ ((List.range 7).map (fun j =>
              Event.compare i (s.frames.getD p.frames0)
                (argmax (p.predict (s.frames.getD p.frames0))) (j + 1))
            ++ [Event.envStep i (argmax (p.predict (s.frames.getD p.frames0)))]) := by
  simp [policyStep, comparatorBlock_events, List.append_assoc, List.range_succ]

lemma policyStep_analyzers (p : RunParams σ μ Msk) (i : Nat) (s : LoopState σ μ Msk) :
    (policyStep p i s).analyzers = s.analyzers := rfl

lemma policyStep_ogAnalyzer (p : RunParams σ μ Msk) (i : Nat) (s : LoopState σ μ Msk) :
    (policyStep p i s).ogAnalyzer = s.ogAnalyzer := rfl

lemma warmStep_lists (p : RunParams σ μ Msk) (i : Nat) (s : LoopState σ μ Msk) :
    (warmStep p i s).pearson_list = s.pearson_list
    ∧ (warmStep p i s).ssim_list = s.ssim_list
    ∧ (warmStep p i s).spearman_list = s.spearman_list
    ∧ (warmStep p i s).model_list = s.model_list
    ∧ (warmStep p i s).action_list = s.action_list := by
  unfold warmStep
  by_cases h : p.approach = "rise" ∧ i = 3 <;> simp [h]

lemma warmStep_events (p : RunParams σ μ Msk) (i : Nat) (s : LoopState σ μ Msk) :
    (warmStep p i s).events
      = s.events
        ++ ((if p.approach = "rise" ∧ i = 3 then [Event.maskShare i] else [])
            ++ [Event.envStep i (warmAction p)]) := by
  unfold warmStep warmAction
  by_cases h : p.approach = "rise" ∧ i = 3 <;> simp [h]

lemma warmStep_analyzers (p : RunParams σ μ Msk) (i : Nat) (s : LoopState σ μ Msk) :
    (warmStep p i s).analyzers
      = if p.approach = "rise" ∧ i = 3 then
          (fun _ => ⟨(p.afterWarmOg s.ogAnalyzer).rise_masks, true⟩)
        else s.analyzers := by
  unfold warmStep
  by_cases h : p.approach = "rise" ∧ i = 3 <;> simp [h]

lemma warmStep_ogAnalyzer (p : RunParams σ μ Msk) (i : Nat) (s : LoopState σ μ Msk) :
    (warmStep p i s).ogAnalyzer
      = if p.approach = "rise" ∧ i = 3 then p.afterWarmOg s.ogAnalyzer
        else s.ogAnalyzer := by
  unfold warmStep
  by_cases h : p.approach = "rise" ∧ i = 3 <;> simp [h]

lemma events_step (p : RunParams σ μ Msk) (i : Nat) :
    (runN p (i + 1)).events = (runN p i).events ++ stepEvents p i := by
  rw [runN_succ]
  unfold loopBody
  by_cases h : i < 4
  · simp [h, stepEvents, warmStep_events]
  · simp [h, stepEvents, policyStep_events, stateAt, chosenAction]

lemma events_runN (p : RunParams σ μ Msk) (n : Nat) :
    (runN p n).events = (List.range n).flatMap (stepEvents p) := by
  induction n with
  | zero => rfl
  | succ n ih => rw [events_step, ih, List.range_succ]; simp

lemma runN_warm_lists (p : RunParams σ μ Msk) :
    ∀ n, n ≤ 4 →
      (runN p n).pearson_list = [] ∧ (runN p n).ssim_list = []
      ∧ (runN p n).spearman_list = [] ∧ (runN p n).model_list = []
      ∧ (runN p n).action_list = [] := by
  intro n
  induction n with
  | zero => intro _; exact ⟨rfl, rfl, rfl, rfl, rfl⟩
  | succ n ih =>
    intro h
    obtain ⟨h1, h2, h3, h4, h5⟩ := ih (by omega)
    rw [runN_succ]
    unfold loopBody
    rw [if_pos (by omega)]
    obtain ⟨w1, w2, w3, w4, w5⟩ := warmStep_lists p n (runN p n)
    exact ⟨w1.trans h1, w2.trans h2, w3.trans h3, w4.trans h4, w5.trans h5⟩

/-- Closed-form description of the accumulator lists after `4 + m`
iterations: the label column is `m` blocks `[1..7]`, the action column is
`m` blocks of seven copies of the step's chosen action, and the three
score columns have length `7 * m`. -/
lemma run_repr (p : RunParams σ μ Msk) : ∀ m : Nat,
    (runN p (4 + m)).model_list
        = ((List.range m).map (fun _ => [1, 2, 3, 4, 5, 6, 7])).flatten
    ∧ (runN p (4 + m)).action_list
        = ((List.range m).map (fun k => List.replicate 7 (chosenAction p (4 + k)))).flatten
    ∧ (runN p (4 + m)).pearson_list.length = 7 * m
    ∧ (runN p (4 + m)).ssim_list.length = 7 * m
    ∧ (runN p (4 + m)).spearman_list.length = 7 * m := by
  intro m
  induction m with
  | zero =>
    obtain ⟨h1, h2, h3, h4, h5⟩ := runN_warm_lists p 4 (by omega)
    exact ⟨by simp [h4], by simp [h5], by simp [h1], by simp [h2], by simp [h3]⟩
  | succ m ih =>
    obtain ⟨h1, h2, h3, h4, h5⟩ := ih
    have hstep : 4 + (m + 1) = (4 + m) + 1 := by omega
    rw [hstep, runN_succ]
    unfold loopBody
    rw [if_neg (by omega)]
    refine ⟨?_, ?_, ?_, ?_, ?_⟩
    · rw [policyStep_model, h1, List.range_succ]; simp
    · rw [policyStep_action, h2, List.range_succ]
      simp [chosenAction, stateAt]
    · rw [policyStep_pearson]; simp [candMapsOf, h3]; omega
    · rw [policyStep_ssim]; simp [candMapsOf, h4]; omega
    · rw [policyStep_spearman]; simp [candMapsOf, h5]; omega

/-- Index formula for a flat list built from blocks of uniform length 7. -/
lemma flatten_get7 {α : Type} (L : List (List α)) (h : ∀ b ∈ L, b.length = 7)
    (i : Nat) : L.flatten[i]? = (L[i / 7]?).bind (fun b => b[i % 7]?) := by
  induction L generalizing i with
  | nil => simp
  | cons b L ih =>
    have hb : b.length = 7 := h b (by simp)
    have hL : ∀ c ∈ L, c.length = 7 := fun c hc => h c (by simp [hc])
    by_cases hi : i < 7
    · have hdiv : i / 7 = 0 := by omega
      have hmod : i % 7 = i := by omega
      rw [List.flatten_cons, List.getElem?_append_left (by omega), hdiv, hmod]
      simp
    · have h7 : 7 ≤ i := by omega
      have hdiv : i / 7 = (i - 7) / 7 + 1 := by omega
      have hmod : i % 7 = (i - 7) % 7 := by omega
      rw [List.flatten_cons, List.getElem?_append_right (by omega), hb, hdiv, hmod,
        List.getElem?_cons_succ]
      exact ih hL (i - 7)

lemma model_list_get (p : RunParams σ μ Msk) (i : Nat) (hi : i < 6979) :
    (runN p 1001).model_list[i]? = some (i % 7 + 1) := by
  have h1001 : (1001 : Nat) = 4 + 997 := by omega
  have hrep := (run_repr p 997).1
  rw [h1001, hrep]
  rw [flatten_get7 _ (by
    intro b hb
    obtain ⟨a, _, heq⟩ := List.mem_map.mp hb
    rw [← heq]; rfl)]
  have hdiv : i / 7 < 997 := by omega
  have hmap : ((List.range 997).map
      (fun _ => ([1, 2, 3, 4, 5, 6, 7] : List Nat)))[i / 7]?
      = some [1, 2, 3, 4, 5, 6, 7] := by
    rw [List.getElem?_map, List.getElem?_range hdiv]; rfl
  rw [hmap]
  have hsmall : ∀ m, m < 7 → ([1, 2, 3, 4, 5, 6, 7] : List Nat)[m]? = some (m + 1) := by
    decide
  simpa using hsmall (i % 7) (by omega)

lemma action_list_get (p : RunParams σ μ Msk) (i : Nat) (hi : i < 6979) :
    (runN p 1001).action_list[i]? = some (chosenAction p (4 + i / 7)) := by
  have h1001 : (1001 : Nat) = 4 + 997 := by omega
  have hrep := (run_repr p 997).2.1
  rw [h1001, hrep]
  rw [flatten_get7 _ (by
    intro b hb
    obtain ⟨a, _, heq⟩ := List.mem_map.mp hb
    rw [← heq, List.length_replicate])]
  have hdiv : i / 7 < 997 := by omega
  have hmap : ((List.range 997).map
      (fun k => List.replicate 7 (chosenAction p (4 + k))))[i / 7]?
      = some (List.replicate 7 (chosenAction p (4 + i / 7))) := by
    rw [List.getElem?_map, List.getElem?_range hdiv]; rfl
  rw [hmap]
  have hlt : i % 7 < 7 := Nat.mod_lt i (by omega)
  have hbind : (some (List.replicate 7 (chosenAction p (4 + i / 7)))).bind
      (fun b => b[i % 7]?)
      = (List.replicate 7 (chosenAction p (4 + i / 7)))[i % 7]? := rfl
  rw [hbind, List.getElem?_replicate, if_pos hlt]

end LoopLemmas

/-! ### Facts about `listMin`, `listMax` and `normalise_image` -/

section MinMax

lemma listMin_cons_cons (x y : ℚ) (t : List ℚ) :
    listMin (x :: y :: t) = min x (listMin (y :: t)) := rfl

lemma listMax_cons_cons (x y : ℚ) (t : List ℚ) :
    listMax (x :: y :: t) = max x (listMax (y :: t)) := rfl

lemma listMin_mem : ∀ l : List ℚ, l ≠ [] → listMin l ∈ l := by
  intro l
  induction l with
  | nil => intro h; exact absurd rfl h
  | cons x t ih =>
    intro _
    cases t with
    | nil => simp [listMin]
    | cons y t' =>
      rw [listMin_cons_cons]
      rcases le_total x (listMin (y :: t')) with h | h
      · simp [min_eq_left h]
      · have := ih (by simp)
        rw [min_eq_right h]
        exact List.mem_cons_of_mem x this

lemma listMax_mem : ∀ l : List ℚ, l ≠ [] → listMax l ∈ l := by
  intro l
  induction l with
  | nil => intro h; exact absurd rfl h
  | cons x t ih =>
    intro _
    cases t with
    | nil => simp [listMax]
    | cons y t' =>
      rw [listMax_cons_cons]
      rcases le_total x (listMax (y :: t')) with h | h
      · have := ih (by simp)
        rw [max_eq_right h]
        exact List.mem_cons_of_mem x this
      · simp [max_eq_left h]

lemma listMin_le : ∀ (l : List ℚ) (x : ℚ), x ∈ l → listMin l ≤ x := by
  intro l
  induction l with
  | nil => intro x hx; simp at hx
  | cons a t ih =>
    intro x hx
    cases t with
    | nil =>
      simp at hx
      simp [listMin, hx]
    | cons y t' =>
      rw [listMin_cons_cons]
      rcases List.mem_cons.mp hx with h | h
      · rw [h]; exact min_le_left _ _
      · exact le_trans (min_le_right _ _) (ih x h)

lemma le_listMax : ∀ (l : List ℚ) (x : ℚ), x ∈ l → x ≤ listMax l := by
  intro l
  induction l with
  | nil => intro x hx; simp at hx
  | cons a t ih =>
    intro x hx
    cases t with
    | nil =>
      simp at hx
      simp [listMax, hx]
    | cons y t' =>
      rw [listMax_cons_cons]
      rcases List.mem_cons.mp hx with h | h
      · rw [h]; exact le_max_left _ _
      · exact le_trans (ih x h) (le_max_right _ _)

lemma listMax_map_sub (c : ℚ) :
    ∀ l : List ℚ, l ≠ [] → listMax (l.map (fun x => x - c)) = listMax l - c := by
  intro l
  induction l with
  | nil => intro h; exact absurd rfl h
  | cons x t ih =>
    intro _
    cases t with
    | nil => simp [listMax]
    | cons y t' =>
      have hmap : (x :: y :: t').map (fun z => z - c)
          = (x - c) :: (y - c) :: t'.map (fun z => z - c) := rfl
      rw [hmap, listMax_cons_cons, listMax_cons_cons]
      have ih' := ih (by simp)
      have hmap2 : (y :: t').map (fun z => z - c)
          = (y - c) :: t'.map (fun z => z - c) := rfl
      rw [hmap2] at ih'
      rw [ih']
      exact max_sub_sub_right x (listMax (y :: t')) c

lemma listMin_le_listMax (l : List ℚ) (h : l ≠ []) : listMin l ≤ listMax l :=
  listMin_le l (listMax l) (listMax_mem l h)

/-- `normalise_image` with its local bindings expanded. -/
lemma normalise_image_def (l : List ℚ) :
    normalise_image l =
      if listMax (l.map (fun x => x - listMin l)) ≠ 0 then
        (l.map (fun x => x - listMin l)).map
          (fun x => x / listMax (l.map (fun y => y - listMin l)))
      else l.map (fun x => x - listMin l) := rfl

/-- `normalise_image` coincides with the spec-side min-max normalizer. -/
lemma normalise_image_eq_spec (l : List ℚ) :
    normalise_image l = minMaxNormalizeSpec l := by
  unfold normalise_image minMaxNormalizeSpec
  by_cases h : listMax (l.map (fun x => x - listMin l)) = 0 <;> simp [h]

/-- On a nonconstant map, `normalise_image` divides by the positive range. -/
lemma normalise_image_nonconstant (l : List ℚ) (hne : l ≠ [])
    (hr : listMin l ≠ listMax l) :
    normalise_image l
      = l.map (fun x => (x - listMin l) / (listMax l - listMin l)) := by
  have hlt : listMin l < listMax l := lt_of_le_of_ne (listMin_le_listMax l hne) hr
  have hmx : listMax (l.map (fun x => x - listMin l)) = listMax l - listMin l :=
    listMax_map_sub (listMin l) l hne
  have hpos : (0 : ℚ) < listMax l - listMin l := by linarith
  rw [normalise_image_def, hmx,
    if_pos (by intro h0; rw [h0] at hpos; exact lt_irrefl 0 hpos)]
  rw [List.map_map]
  rfl

/-- On a constant map, the min-subtraction yields all zeros and the
division guard is false. -/
lemma normalise_image_constant (l : List ℚ) (hne : l ≠ [])
    (hc : listMin l = listMax l) :
    normalise_image l = List.replicate l.length 0
    ∧ listMax (l.map (fun x => x - listMin l)) = 0 := by
  have hall : ∀ x ∈ l, x = listMin l := by
    intro x hx
    have h1 := listMin_le l x hx
    have h2 := le_listMax l x hx
    rw [← hc] at h2
    linarith
  have hshift : l.map (fun x => x - listMin l) = List.replicate l.length 0 := by
    have : l.map (fun x => x - listMin l) = l.map (fun _ => (0 : ℚ)) := by
      apply List.map_congr_left
      intro x hx
      rw [hall x hx]; ring
    rw [this, List.map_const']
  have hmx : listMax (l.map (fun x => x - listMin l)) = 0 := by
    rw [hshift]
    cases hl : l.length with
    | zero => exact absurd (List.length_eq_zero.mp hl) hne
    | succ n =>
      have hmem := listMax_mem (List.replicate (n + 1) (0 : ℚ)) (by simp)
      exact List.eq_of_mem_replicate hmem
  refine ⟨?_, hmx⟩
  rw [normalise_image_def, hmx]
  simp [hshift]

end MinMax

/-! ### Frame lemmas for the store model -/

section StoreLemmas

lemma readRef_append_left (s : Store) (t : Store) (j : Nat) (hj : j < s.length) :
    readRef (s ++ t) j = readRef s j := by
  unfold readRef
  rw [List.getElem?_append_left hj]

lemma readRef_concat_length (s : Store) (v : List ℚ) :
    readRef (s ++ [v]) s.length = v := by
  unfold readRef
  rw [List.getElem?_concat_length]
  rfl

lemma normalise_image_st_frame (s : Store) (r : Ref) (j : Nat) (hj : j < s.length) :
    readRef (normalise_image_st s r).1 j = readRef s j := by
  unfold normalise_image_st alloc
  by_cases h : listMax ((readRef s r).map (fun x => x - listMin (readRef s r))) ≠ 0
  · rw [if_pos h]
    rw [List.append_assoc]
    exact readRef_append_left s _ j hj
  · rw [if_neg h]
    exact readRef_append_left s _ j hj

lemma normalise_image_st_length (s : Store) (r : Ref) :
    s.length ≤ (normalise_image_st s r).1.length := by
  unfold normalise_image_st alloc
  by_cases h : listMax ((readRef s r).map (fun x => x - listMin (readRef s r))) ≠ 0 <;>
    simp [h]

lemma normalise_image_st_ref_lt (s : Store) (r : Ref) :
    (normalise_image_st s r).2 < (normalise_image_st s r).1.length := by
  unfold normalise_image_st alloc
  by_cases h : listMax ((readRef s r).map (fun x => x - listMin (readRef s r))) ≠ 0 <;>
    simp [h]

lemma normalise_image_st_value (s : Store) (r : Ref) :
    readRef (normalise_image_st s r).1 (normalise_image_st s r).2
      = normalise_image (readRef s r) := by
  unfold normalise_image_st alloc
  rw [normalise_image_def]
  by_cases h : listMax ((readRef s r).map (fun x => x - listMin (readRef s r))) ≠ 0
  · rw [if_pos h, if_pos h]
    exact readRef_concat_length _ _
  · rw [if_neg h, if_neg h]
    exact readRef_concat_length _ _

lemma calc_sim_st_frame (M : Metrics) (s : Store) (lr rr : Ref)
    (ps ss sp : List ℚ) (j : Nat) (hj : j < s.length) :
    readRef (calc_sim_st M s lr rr ps ss sp).1 j = readRef s j := by
  unfold calc_sim_st alloc
  have h1 := normalise_image_st_frame s lr j hj
  have hl1 := normalise_image_st_length s lr
  have h2 := normalise_image_st_frame (normalise_image_st s lr).1 rr j (by omega)
  have hl2 := normalise_image_st_length (normalise_image_st s lr).1 rr
  have h3 := readRef_append_left (normalise_image_st (normalise_image_st s lr).1 rr).1
    [((readRef (normalise_image_st (normalise_image_st s lr).1 rr).1
        (normalise_image_st (normalise_image_st s lr).1 rr).2).map (fun x => 1 - x))]
    j (by omega)
  simp only []
  rw [h3, h2, h1]

lemma calc_sim_st_coherent (M : Metrics) (s : Store) (lr rr : Ref)
    (ps ss sp : List ℚ) (hrr : rr < s.length) :
    (calc_sim_st M s lr rr ps ss sp).2
      = calc_sim M (readRef s lr) (readRef s rr) ps ss sp := by
  have hr1 := normalise_image_st_ref_lt s lr
  have hl2 := normalise_image_st_length (normalise_image_st s lr).1 rr
  have hr2 := normalise_image_st_ref_lt (normalise_image_st s lr).1 rr
  have hlearned :
      readRef ((normalise_image_st (normalise_image_st s lr).1 rr).1
          ++ [(readRef (normalise_image_st (normalise_image_st s lr).1 rr).1
                (normalise_image_st (normalise_image_st s lr).1 rr).2).map
              (fun x => 1 - x)])
        (normalise_image_st s lr).2
      = normalise_image (readRef s lr) := by
    rw [readRef_append_left _ _ _
        (lt_of_lt_of_le (normalise_image_st_ref_lt s lr)
          (normalise_image_st_length (normalise_image_st s lr).1 rr)),
      normalise_image_st_frame _ rr _ hr1, normalise_image_st_value]
  have hrand :
      readRef ((normalise_image_st (normalise_image_st s lr).1 rr).1
          ++ [(readRef (normalise_image_st (normalise_image_st s lr).1 rr).1
                (normalise_image_st (normalise_image_st s lr).1 rr).2).map
              (fun x => 1 - x)])
        (normalise_image_st (normalise_image_st s lr).1 rr).2
      = normalise_image (readRef s rr) := by
    rw [readRef_append_left _ _ _
        (normalise_image_st_ref_lt (normalise_image_st s lr).1 rr),
      normalise_image_st_value, normalise_image_st_frame s lr rr hrr]
  have hneg :
      readRef ((normalise_image_st (normalise_image_st s lr).1 rr).1
          ++ [(readRef (normalise_image_st (normalise_image_st s lr).1 rr).1
                (normalise_image_st (normalise_image_st s lr).1 rr).2).map
              (fun x => 1 - x)])
        (normalise_image_st (normalise_image_st s lr).1 rr).1.length
      = (readRef (normalise_image_st (normalise_image_st s lr).1 rr).1
          (normalise_image_st (normalise_image_st s lr).1 rr).2).map
          (fun x => 1 - x) :=
    readRef_concat_length _ _
  have hneg2 : readRef (normalise_image_st (normalise_image_st s lr).1 rr).1
      (normalise_image_st (normalise_image_st s lr).1 rr).2
      = normalise_image (readRef s rr) := by
    rw [normalise_image_st_value, normalise_image_st_frame s lr rr hrr]
  rw [calc_sim_eq]
  unfold calc_sim_st alloc
  simp only []
  rw [hlearned, hrand, hneg, hneg2]
  rfl

end StoreLemmas

/-! ### Facts about the variant chain and `check_models` -/

section ChainLemmas

variable (m : KModel) (f : Fin 5 → LayerWeights)

lemma variant_step (k : Nat) (h1 : 1 ≤ k) (h5 : k ≤ 5) :
    variantChain m f k
      = init_layer (copy_model (variantChain m f (k - 1))) (targetLayer k)
          (f ⟨k - 1, by omega⟩) := by
  interval_cases k <;> rfl

lemma variant_untouched (k : Nat) (h1 : 1 ≤ k) (h5 : k ≤ 5) (i : Nat)
    (hi : i ≠ targetLayer k) :
    variantChain m f k i = variantChain m f (k - 1) i := by
  interval_cases k
  · show (if i = 6 then f 0 else m i) = m i
    rw [if_neg (show i ≠ 6 from hi)]
  · show (if i = 5 then f 1 else model1 m f i) = model1 m f i
    rw [if_neg (show i ≠ 5 from hi)]
  · show (if i = 3 then f 2 else model2 m f i) = model2 m f i
    rw [if_neg (show i ≠ 3 from hi)]
  · show (if i = 2 then f 3 else model3 m f i) = model3 m f i
    rw [if_neg (show i ≠ 2 from hi)]
  · show (if i = 1 then f 4 else model4 m f i) = model4 m f i
    rw [if_neg (show i ≠ 1 from hi)]

lemma variant_target (k : Nat) (h1 : 1 ≤ k) (h5 : k ≤ 5) :
    variantChain m f k (targetLayer k) = f ⟨k - 1, by omega⟩ := by
  interval_cases k <;> rfl

lemma variant_orig (k : Nat) (h5 : k ≤ 5) (i : Nat)
    (hi : i ∉ randomizedLayers k) :
    variantChain m f k i = m i := by
  interval_cases k
  · rfl
  · simp [randomizedLayers, layerOrder] at hi
    show (if i = 6 then f 0 else m i) = m i
    rw [if_neg hi]
  · simp [randomizedLayers, layerOrder] at hi
    show (if i = 5 then f 1 else if i = 6 then f 0 else m i) = m i
    rw [if_neg hi.2, if_neg hi.1]
  · simp [randomizedLayers, layerOrder] at hi
    show (if i = 3 then f 2 else if i = 5 then f 1 else if i = 6 then f 0 else m i) = m i
    rw [if_neg hi.2.2, if_neg hi.2.1, if_neg hi.1]
  · simp [randomizedLayers, layerOrder] at hi
    show (if i = 2 then f 3 else if i = 3 then f 2 else if i = 5 then f 1
          else if i = 6 then f 0 else m i) = m i
    rw [if_neg hi.2.2.2, if_neg hi.2.2.1, if_neg hi.2.1, if_neg hi.1]
  · simp [randomizedLayers, layerOrder] at hi
    show (if i = 1 then f 4 else if i = 2 then f 3 else if i = 3 then f 2
          else if i = 5 then f 1 else if i = 6 then f 0 else m i) = m i
    rw [if_neg hi.2.2.2.2, if_neg hi.2.2.2.1, if_neg hi.2.2.1, if_neg hi.2.1, if_neg hi.1]

lemma variant_fresh (k : Nat) (h5 : k ≤ 5) (j : Fin 5) (hj : j.1 < k) :
    variantChain m f k (layerOrder.getD j.1 0) = f j := by
  interval_cases k <;> fin_cases j <;> first | rfl | simp at hj

/-- `check_models` printed as the explicit five console outputs. -/
lemma check_models_eq (m1 m : KModel) :
    check_models m1 m
      = [(1, decide ((m1 1).1 = (m 1).1), decide ((m1 1).2 = (m 1).2)),
         (2, decide ((m1 2).1 = (m 2).1), decide ((m1 2).2 = (m 2).2)),
         (3, decide ((m1 3).1 = (m 3).1), decide ((m1 3).2 = (m 3).2)),
         (5, decide ((m1 5).1 = (m 5).1), decide ((m1 5).2 = (m 5).2)),
         (6, decide ((m1 6).1 = (m 6).1), decide ((m1 6).2 = (m 6).2))] := rfl

lemma targetLayer_mem_checked (k : Nat) (h1 : 1 ≤ k) (h5 : k ≤ 5) :
    targetLayer k ∈ [1, 2, 3, 5, 6] := by
  interval_cases k <;> decide

end ChainLemmas

/-! ### Lengths of the accumulator columns and the assembled table -/

section TableLemmas

variable {σ μ Msk : Type}

lemma flatten_len7 {α : Type} (L : List (List α)) (h : ∀ b ∈ L, b.length = 7) :
    L.flatten.length = 7 * L.length := by
  induction L with
  | nil => rfl
  | cons b L ih =>
    have hb : b.length = 7 := h b (by simp)
    have hL : ∀ c ∈ L, c.length = 7 := fun c hc => h c (by simp [hc])
    rw [List.flatten_cons, List.length_append, hb, ih hL, List.length_cons]
    ring

lemma lists_length (p : RunParams σ μ Msk) (n : Nat) :
    (runN p n).pearson_list.length = 7 * (n - 4)
    ∧ (runN p n).ssim_list.length = 7 * (n - 4)
    ∧ (runN p n).spearman_list.length = 7 * (n - 4)
    ∧ (runN p n).model_list.length = 7 * (n - 4)
    ∧ (runN p n).action_list.length = 7 * (n - 4) := by
  rcases Nat.lt_or_ge n 4 with h | h
  · obtain ⟨h1, h2, h3, h4, h5⟩ := runN_warm_lists p n (by omega)
    have hz : n - 4 = 0 := by omega
    rw [hz]
    exact ⟨by simp [h1], by simp [h2], by simp [h3], by simp [h4], by simp [h5]⟩
  · obtain ⟨m, rfl⟩ : ∃ m, n = 4 + m := ⟨n - 4, by omega⟩
    obtain ⟨h1, h2, h3, h4, h5⟩ := run_repr p m
    have hm : 4 + m - 4 = m := by omega
    rw [hm]
    refine ⟨?_, ?_, ?_, ?_, ?_⟩
    · rw [h3]
    · rw [h4]
    · rw [h5]
    · rw [h1, flatten_len7 _ (by
        intro b hb
        obtain ⟨a, _, heq⟩ := List.mem_map.mp hb
        rw [← heq]; rfl)]
      simp
    · rw [h2, flatten_len7 _ (by
        intro b hb
        obtain ⟨a, _, heq⟩ := List.mem_map.mp hb
        rw [← heq, List.length_replicate])]
      simp

lemma zip5_length (ms : List Nat) :
    ∀ (ps ss sps : List ℚ) (acts : List Nat),
      ps.length = ms.length → ss.length = ms.length → sps.length = ms.length →
      acts.length = ms.length →
      (zip5 ms ps ss sps acts).length = ms.length := by
  induction ms with
  | nil => intro ps ss sps acts _ _ _ _; cases ps <;> rfl
  | cons mh mt ih =>
    intro ps ss sps acts h1 h2 h3 h4
    cases ps with
    | nil => simp at h1
    | cons ph pt =>
      cases ss with
      | nil => simp at h2
      | cons sh st =>
        cases sps with
        | nil => simp at h3
        | cons sph spt =>
          cases acts with
          | nil => simp at h4
          | cons ah at' =>
            simp only [zip5, List.length_cons]
            rw [ih pt st spt at' (by simpa using h1) (by simpa using h2)
              (by simpa using h3) (by simpa using h4)]

lemma zip5_get (ms : List Nat) :
    ∀ (ps ss sps : List ℚ) (acts : List Nat) (i : Nat),
      ps.length = ms.length → ss.length = ms.length → sps.length = ms.length →
      acts.length = ms.length →
      ((zip5 ms ps ss sps acts)[i]?).map (fun r => r.rand_layer) = ms[i]?
      ∧ ((zip5 ms ps ss sps acts)[i]?).map (fun r => r.action) = acts[i]? := by
  induction ms with
  | nil =>
    intro ps ss sps acts i _ _ _ h4
    cases ps <;>
      (cases acts with
       | nil => simp [zip5]
       | cons a t => simp at h4)
  | cons mh mt ih =>
    intro ps ss sps acts i h1 h2 h3 h4
    cases ps with
    | nil => simp at h1
    | cons ph pt =>
      cases ss with
      | nil => simp at h2
      | cons sh st =>
        cases sps with
        | nil => simp at h3
        | cons sph spt =>
          cases acts with
          | nil => simp at h4
          | cons ah at' =>
            cases i with
            | zero => simp [zip5]
            | succ i' =>
              simp only [zip5, List.getElem?_cons_succ]
              exact ih pt st spt at' i' (by simpa using h1) (by simpa using h2)
                (by simpa using h3) (by simpa using h4)

/-- The assembled table of a completed run has `7 * 997 = 6979` rows. -/
lemma rows_len (p : RunParams σ μ Msk) :
    (resultRows (sanity_check_run p)).length = 6979 := by
  obtain ⟨h1, h2, h3, h4, h5⟩ := lists_length p 1001
  unfold resultRows sanity_check_run
  rw [zip5_length _ _ _ _ _ (by omega) (by omega) (by omega) (by omega), h4]

end TableLemmas

/-! ### The RISE mask-sharing block -/

section RiseLemmas

variable {σ μ Msk : Type}

lemma analyzers_before3 (p : RunParams σ μ Msk) :
    ∀ n, n ≤ 3 →
      (runN p n).analyzers = p.varAnalyzer0 ∧ (runN p n).ogAnalyzer = p.ogAnalyzer0 := by
  intro n
  induction n with
  | zero => intro _; exact ⟨rfl, rfl⟩
  | succ n ih =>
    intro h
    obtain ⟨ha, ho⟩ := ih (by omega)
    rw [runN_succ]
    unfold loopBody
    rw [if_pos (by omega)]
    have hcond : ¬(p.approach = "rise" ∧ n = 3) := by
      rintro ⟨_, h3⟩; omega
    rw [warmStep_analyzers, warmStep_ogAnalyzer, if_neg hcond, if_neg hcond]
    exact ⟨ha, ho⟩

lemma runN4_analyzers (p : RunParams σ μ Msk) (hp : p.approach = "rise") :
    (runN p 4).analyzers = (fun _ => ⟨(p.afterWarmOg p.ogAnalyzer0).rise_masks, true⟩)
    ∧ (runN p 4).ogAnalyzer = p.afterWarmOg p.ogAnalyzer0 := by
  obtain ⟨ha, ho⟩ := analyzers_before3 p 3 (by omega)
  show (runN p (3 + 1)).analyzers = _ ∧ (runN p (3 + 1)).ogAnalyzer = _
  rw [runN_succ]
  unfold loopBody
  rw [if_pos (by omega)]
  have hcond : p.approach = "rise" ∧ 3 = 3 := ⟨hp, rfl⟩
  rw [warmStep_analyzers, warmStep_ogAnalyzer, if_pos hcond, if_pos hcond, ho]
  exact ⟨rfl, rfl⟩

lemma analyzers_stable (p : RunParams σ μ Msk) :
    ∀ n, 4 ≤ n → (runN p n).analyzers = (runN p 4).analyzers := by
  intro n
  induction n with
  | zero => intro h; omega
  | succ n ih =>
    intro h
    rcases Nat.lt_or_ge n 4 with h4 | h4
    · have : n + 1 = 4 := by omega
      rw [this]
    · rw [runN_succ]
      unfold loopBody
      rw [if_neg (by omega)]
      rw [policyStep_analyzers]
      exact ih h4

lemma events4_rise (p : RunParams σ μ Msk) (hp : p.approach = "rise") :
    (runN p 4).events
      = [Event.envStep 0 (warmAction p), Event.envStep 1 (warmAction p),
         Event.envStep 2 (warmAction p), Event.maskShare 3,
         Event.envStep 3 (warmAction p)] := by
  rw [events_runN]
  have hr : List.range 4 = [0, 1, 2, 3] := rfl
  rw [hr]
  simp [stepEvents, hp]

end RiseLemmas

lemma check_entry_iff (m : KModel) (f : Fin 5 → LayerWeights) (k : Nat)
    (h1 : 1 ≤ k) (h5 : k ≤ 5)
    (hdiff : f ⟨k - 1, by omega⟩ ≠ variantChain m f (k - 1) (targetLayer k))
    (c : Nat) :
    ((decide ((variantChain m f k c).1 = (variantChain m f (k - 1) c).1) = true
      ∧ decide ((variantChain m f k c).2 = (variantChain m f (k - 1) c).2) = true)
     ↔ c ≠ targetLayer k) := by
  constructor
  · rintro ⟨hb1, hb2⟩ hceq
    rw [decide_eq_true_eq] at hb1 hb2
    subst hceq
    apply hdiff
    have hpair : variantChain m f k (targetLayer k)
        = variantChain m f (k - 1) (targetLayer k) := Prod.ext hb1 hb2
    rw [← hpair, variant_target m f k h1 h5]
  · intro hne
    have hu := variant_untouched m f k h1 h5 c hne
    rw [hu]
    exact ⟨decide_eq_true_eq.mpr rfl, decide_eq_true_eq.mpr rfl⟩

/-! ## The claims -/

/-- Claim C1: at every policy-driven step the seven comparators (the five
variants and the two random baselines) are evaluated against the same
input state and the same target action, the action being the argmax of
the original, unrandomized model's output on that state, and
`wrapper.step` advances the environment only after all seven comparison
events, with nothing interleaved between them. -/
theorem c1_step_ordering {σ μ Msk : Type} (p : RunParams σ μ Msk) (i : Nat)
    (h4 : 4 ≤ i) (hi : i < 1001) :
    (sanity_check_run p).events = (List.range 1001).flatMap (stepEvents p)
    ∧ stepEvents p i
        = (List.range 7).map (fun j =>
            Event.compare i (stateAt p i) (chosenAction p i) (j + 1))
          ++ [Event.envStep i (chosenAction p i)]
    ∧ chosenAction p i = argmax (p.predict (stateAt p i)) := by
  refine ⟨events_runN p 1001, ?_, rfl⟩
  unfold stepEvents
  rw [if_neg (by omega)]

/-- Closed instance of `c1_step_ordering`. -/
theorem c1_witness :
    (sanity_check_run trivParams).events
        = (List.range 1001).flatMap (stepEvents trivParams)
    ∧ stepEvents trivParams 4
        = (List.range 7).map (fun j =>
            Event.compare 4 (stateAt trivParams 4) (chosenAction trivParams 4) (j + 1))
          ++ [Event.envStep 4 (chosenAction trivParams 4)]
    ∧ chosenAction trivParams 4 = argmax (trivParams.predict (stateAt trivParams 4)) :=
  c1_step_ordering trivParams 4 (by omega) (by omega)

/-- Claim C2: the layer-cascade randomizer builds exactly five variants,
each obtained by copying its predecessor and re-initializing one more
layer, following the hard-coded index order `6, 5, 3, 2, 1` (layer 4 is
skipped), so the randomized-layer sets are nested, the untouched layers
keep the original weights, and the randomized layers hold the
initializer draws. -/
theorem c2_variant_chain (m : KModel) (f : Fin 5 → LayerWeights) (k : Nat)
    (h1 : 1 ≤ k) (h5 : k ≤ 5) :
    layerOrder = [6, 5, 3, 2, 1]
    ∧ 4 ∉ layerOrder
    ∧ variantChain m f k
        = init_layer (copy_model (variantChain m f (k - 1))) (targetLayer k)
            (f ⟨k - 1, by omega⟩)
    ∧ (∀ x, x ∈ randomizedLayers (k - 1) → x ∈ randomizedLayers k)
    ∧ (∀ i, i ∉ randomizedLayers k → variantChain m f k i = m i)
    ∧ (∀ j : Fin 5, j.1 < k → variantChain m f k (layerOrder.getD j.1 0) = f j) := by
  refine ⟨rfl, by decide, variant_step m f k h1 h5, ?_,
    fun i hi => variant_orig m f k h5 i hi,
    fun j hj => variant_fresh m f k h5 j hj⟩
  interval_cases k <;> intro x hx <;>
    simp [randomizedLayers, layerOrder] at hx ⊢ <;> tauto

/-- Closed instance of `c2_variant_chain`. -/
theorem c2_witness :
    layerOrder = [6, 5, 3, 2, 1]
    ∧ 4 ∉ layerOrder
    ∧ variantChain trivModel trivFresh 5
        = init_layer (copy_model (variantChain trivModel trivFresh 4)) (targetLayer 5)
            (trivFresh ⟨4, by omega⟩)
    ∧ (∀ x, x ∈ randomizedLayers 4 → x ∈ randomizedLayers 5)
    ∧ (∀ i, i ∉ randomizedLayers 5 → variantChain trivModel trivFresh 5 i = trivModel i)
    ∧ (∀ j : Fin 5, j.1 < 5 →
        variantChain trivModel trivFresh 5 (layerOrder.getD j.1 0) = trivFresh j) :=
  c2_variant_chain trivModel trivFresh 5 (by omega) (by omega)

/-- Claim C3 counterexample: the completed run's table has 6979 rows, not
7000 as the claim states. -/
theorem c3_counterexample :
    (resultRows (sanity_check_run trivParams)).length = 6979
    ∧ (resultRows (sanity_check_run trivParams)).length ≠ 7000 := by
  have h := rows_len trivParams
  exact ⟨h, by rw [h]; decide⟩

/-- Claim C3 (amended): the episode loop runs 1001 iterations, the first
4 warm-up iterations emit no records, each policy-driven iteration emits
7 records, and the completed table has `7 * 997 = 6979` rows. -/
theorem c3_row_count {σ μ Msk : Type} (p : RunParams σ μ Msk) (i : Nat)
    (h4 : 4 ≤ i) (hi : i < 1001) :
    (runN p 4).model_list = []
    ∧ (runN p (i + 1)).model_list.length = (runN p i).model_list.length + 7
    ∧ (sanity_check_run p).model_list.length = 7 * 997
    ∧ (resultRows (sanity_check_run p)).length = 6979 := by
  refine ⟨(runN_warm_lists p 4 (by omega)).2.2.2.1, ?_, ?_, rows_len p⟩
  · have l1 := (lists_length p (i + 1)).2.2.2.1
    have l2 := (lists_length p i).2.2.2.1
    omega
  · have l := (lists_length p 1001).2.2.2.1
    unfold sanity_check_run
    omega

/-- Closed instance of `c3_row_count`. -/
theorem c3_witness :
    (runN trivParams 4).model_list = []
    ∧ (runN trivParams 5).model_list.length = (runN trivParams 4).model_list.length + 7
    ∧ (sanity_check_run trivParams).model_list.length = 7 * 997
    ∧ (resultRows (sanity_check_run trivParams)).length = 6979 :=
  c3_row_count trivParams 4 (by omega) (by omega)

/-- Claim C4: `calc_sim` min-max normalizes both maps (skipping the
division when the max after min-subtraction is zero, as the comparison
with the spec-side normalizer records), computes each of the three
statistics once against the normalized candidate and once against its
pixel-wise complement `1 - candidate`, and appends the signed maximum of
each pair. -/
theorem c4_metrics_max (M : Metrics)
    (learned_relevance random_relevance ps ss sp : List ℚ) :
    calc_sim M learned_relevance random_relevance ps ss sp
      = (ps ++ [max (M.pearsonr (M.hog (normalise_image random_relevance))
                  (M.hog (normalise_image learned_relevance))).1
                (M.pearsonr
                  (M.hog ((normalise_image random_relevance).map (fun x => 1 - x)))
                  (M.hog (normalise_image learned_relevance))).1],
         ss ++ [max (M.ssim (normalise_image random_relevance)
                  (normalise_image learned_relevance))
                (M.ssim ((normalise_image random_relevance).map (fun x => 1 - x))
                  (normalise_image learned_relevance))],
         sp ++ [max (M.spearmanr (normalise_image random_relevance)
                  (normalise_image learned_relevance)).1
                (M.spearmanr
                  ((normalise_image random_relevance).map (fun x => 1 - x))
                  (normalise_image learned_relevance)).1])
    ∧ normalise_image learned_relevance = minMaxNormalizeSpec learned_relevance
    ∧ normalise_image random_relevance = minMaxNormalizeSpec random_relevance :=
  ⟨rfl, normalise_image_eq_spec learned_relevance,
    normalise_image_eq_spec random_relevance⟩

/-- Claim C5: for the RISE approach the sampling masks are generated
once, at warm-up iteration 3, from the original model's analyzer; before
iteration 3 the variant analyzers are untouched, from iteration 4 on all
five variant analyzers carry the original analyzer's mask object with
`masks_generated` set, they stay that way through the whole run, and the
mask-sharing event precedes every comparison in the trace. -/
theorem c5_rise_masks {σ μ Msk : Type} (p : RunParams σ μ Msk)
    (hp : p.approach = "rise") :
    (∀ k : Fin 5, (runN p 3).analyzers k = p.varAnalyzer0 k)
    ∧ (∀ k : Fin 5, (runN p 4).analyzers k
        = ⟨(p.afterWarmOg p.ogAnalyzer0).rise_masks, true⟩)
    ∧ (runN p 4).ogAnalyzer = p.afterWarmOg p.ogAnalyzer0
    ∧ (∀ k : Fin 5, (sanity_check_run p).analyzers k
        = ⟨(p.afterWarmOg p.ogAnalyzer0).rise_masks, true⟩)
    ∧ (runN p 4).events
        = [Event.envStep 0 (warmAction p), Event.envStep 1 (warmAction p),
           Event.envStep 2 (warmAction p), Event.maskShare 3,
           Event.envStep 3 (warmAction p)] := by
  refine ⟨fun k => congrFun (analyzers_before3 p 3 (by omega)).1 k,
    fun k => congrFun (runN4_analyzers p hp).1 k,
    (runN4_analyzers p hp).2, fun k => ?_, events4_rise p hp⟩
  unfold sanity_check_run
  rw [analyzers_stable p 1001 (by omega)]
  exact congrFun (runN4_analyzers p hp).1 k

/-- Closed instance of `c5_rise_masks`. -/
theorem c5_witness :
    (∀ k : Fin 5, (runN trivRiseParams 3).analyzers k = trivRiseParams.varAnalyzer0 k)
    ∧ (∀ k : Fin 5, (runN trivRiseParams 4).analyzers k
        = ⟨(trivRiseParams.afterWarmOg trivRiseParams.ogAnalyzer0).rise_masks, true⟩)
    ∧ (runN trivRiseParams 4).ogAnalyzer
        = trivRiseParams.afterWarmOg trivRiseParams.ogAnalyzer0
    ∧ (∀ k : Fin 5, (sanity_check_run trivRiseParams).analyzers k
        = ⟨(trivRiseParams.afterWarmOg trivRiseParams.ogAnalyzer0).rise_masks, true⟩)
    ∧ (runN trivRiseParams 4).events
        = [Event.envStep 0 (warmAction trivRiseParams),
           Event.envStep 1 (warmAction trivRiseParams),
           Event.envStep 2 (warmAction trivRiseParams), Event.maskShare 3,
           Event.envStep 3 (warmAction trivRiseParams)] :=
  c5_rise_masks trivRiseParams rfl

/-- Claim C6 counterexample: the input `[0, 0, 1]` has nonzero range, yet
`normalise_image` returns it unchanged with two pixels attaining 0, so
"exactly one pixel attains 0" fails. -/
theorem c6_counterexample :
    listMin [(0 : ℚ), 0, 1] ≠ listMax [(0 : ℚ), 0, 1]
    ∧ normalise_image [(0 : ℚ), 0, 1] = [0, 0, 1]
    ∧ (normalise_image [(0 : ℚ), 0, 1]).count 0 ≠ 1 := by
  have h2 : normalise_image [(0 : ℚ), 0, 1] = [0, 0, 1] := by
    rw [normalise_image_def]
    norm_num [listMin, listMax]
  refine ⟨by norm_num [listMin, listMax], h2, ?_⟩
  rw [h2]
  decide

/-- Claim C6 (amended): on a nonempty input with nonzero range the
output of `normalise_image` lies in `[0, 1]` with at least one pixel
attaining 0 (all minima do) and at least one attaining 1; on a constant
input the min-subtraction yields all zeros and the division guard is
false, so no division is performed. -/
theorem c6_normalise (l : List ℚ) (hne : l ≠ []) :
    if listMin l = listMax l then
      normalise_image l = List.replicate l.length 0
      ∧ listMax (l.map (fun x => x - listMin l)) = 0
    else
      (∀ x ∈ normalise_image l, 0 ≤ x ∧ x ≤ 1)
      ∧ (0 : ℚ) ∈ normalise_image l
      ∧ (1 : ℚ) ∈ normalise_image l := by
  by_cases hc : listMin l = listMax l
  · rw [if_pos hc]
    exact normalise_image_constant l hne hc
  · rw [if_neg hc]
    have hmap := normalise_image_nonconstant l hne hc
    have hlt : listMin l < listMax l := lt_of_le_of_ne (listMin_le_listMax l hne) hc
    have hpos : (0 : ℚ) < listMax l - listMin l := by linarith
    refine ⟨?_, ?_, ?_⟩
    · intro x hx
      rw [hmap] at hx
      obtain ⟨y, hy, rfl⟩ := List.mem_map.mp hx
      have hy1 := listMin_le l y hy
      have hy2 := le_listMax l y hy
      constructor
      · apply div_nonneg _ (le_of_lt hpos); linarith
      · rw [div_le_one hpos]; linarith
    · rw [hmap]
      refine List.mem_map.mpr ⟨listMin l, listMin_mem l hne, ?_⟩
      rw [sub_self, zero_div]
    · rw [hmap]
      refine List.mem_map.mpr ⟨listMax l, listMax_mem l hne, ?_⟩
      exact div_self (ne_of_gt hpos)

/-- Closed instance of `c6_normalise`. -/
theorem c6_witness :
    ([(0 : ℚ), 0, 2] ≠ [])
    ∧ (if listMin [(0 : ℚ), 0, 2] = listMax [(0 : ℚ), 0, 2] then
        normalise_image [(0 : ℚ), 0, 2] = List.replicate ([(0 : ℚ), 0, 2]).length 0
        ∧ listMax (([(0 : ℚ), 0, 2]).map (fun x => x - listMin [(0 : ℚ), 0, 2])) = 0
      else
        (∀ x ∈ normalise_image [(0 : ℚ), 0, 2], 0 ≤ x ∧ x ≤ 1)
        ∧ (0 : ℚ) ∈ normalise_image [(0 : ℚ), 0, 2]
        ∧ (1 : ℚ) ∈ normalise_image [(0 : ℚ), 0, 2]) :=
  ⟨by decide, c6_normalise [(0 : ℚ), 0, 2] (by decide)⟩

/-- Claim C7: each policy-driven iteration appends exactly seven records
in the fixed comparator order (variant depths 1-5, uniform baseline 6,
Gaussian baseline 7), each record carrying the three scores for its
candidate map and the step's action, and `sanity_check` assembles the
columns `{rand_layer, pearson, ssim, spearman, action}` into one table
at the per-game output path. -/
theorem c7_records {σ μ Msk : Type} (p : RunParams σ μ Msk) (file_name : String)
    (i : Nat) (h4 : 4 ≤ i) (hi : i < 1001) :
    (runN p (i + 1)).model_list = (runN p i).model_list ++ [1, 2, 3, 4, 5, 6, 7]
    ∧ (runN p (i + 1)).action_list
        = (runN p i).action_list ++ List.replicate 7 (chosenAction p i)
    ∧ (runN p (i + 1)).pearson_list
        = (runN p i).pearson_list
          ++ (candMapsOf p (stateAt p i) (chosenAction p i) i).map
              (fun c => pearsonScore p.metrics
                (p.ogSaliency (stateAt p i) (chosenAction p i)) c)
    ∧ (runN p (i + 1)).ssim_list
        = (runN p i).ssim_list
          ++ (candMapsOf p (stateAt p i) (chosenAction p i) i).map
              (fun c => ssimScore p.metrics
                (p.ogSaliency (stateAt p i) (chosenAction p i)) c)
    ∧ (runN p (i + 1)).spearman_list
        = (runN p i).spearman_list
          ++ (candMapsOf p (stateAt p i) (chosenAction p i) i).map
              (fun c => spearmanScore p.metrics
                (p.ogSaliency (stateAt p i) (chosenAction p i)) c)
    ∧ sanity_check p file_name
        = ("results" ++ "/" ++ p.game ++ "/" ++ file_name,
           zip5 (sanity_check_run p).model_list (sanity_check_run p).pearson_list
             (sanity_check_run p).ssim_list (sanity_check_run p).spearman_list
             (sanity_check_run p).action_list) := by
  rw [runN_succ]
  unfold loopBody
  rw [if_neg (by omega)]
  exact ⟨policyStep_model p i (runN p i), policyStep_action p i (runN p i),
    policyStep_pearson p i (runN p i), policyStep_ssim p i (runN p i),
    policyStep_spearman p i (runN p i), rfl⟩

/-- Closed instance of `c7_records`. -/
theorem c7_witness :
    (runN trivParams 5).model_list
        = (runN trivParams 4).model_list ++ [1, 2, 3, 4, 5, 6, 7]
    ∧ (runN trivParams 5).action_list
        = (runN trivParams 4).action_list
          ++ List.replicate 7 (chosenAction trivParams 4)
    ∧ (runN trivParams 5).pearson_list
        = (runN trivParams 4).pearson_list
          ++ (candMapsOf trivParams (stateAt trivParams 4) (chosenAction trivParams 4)
                4).map
              (fun c => pearsonScore trivParams.metrics
                (trivParams.ogSaliency (stateAt trivParams 4)
                  (chosenAction trivParams 4)) c)
    ∧ (runN trivParams 5).ssim_list
        = (runN trivParams 4).ssim_list
          ++ (candMapsOf trivParams (stateAt trivParams 4) (chosenAction trivParams 4)
                4).map
              (fun c => ssimScore trivParams.metrics
                (trivParams.ogSaliency (stateAt trivParams 4)
                  (chosenAction trivParams 4)) c)
    ∧ (runN trivParams 5).spearman_list
        = (runN trivParams 4).spearman_list
          ++ (candMapsOf trivParams (stateAt trivParams 4) (chosenAction trivParams 4)
                4).map
              (fun c => spearmanScore trivParams.metrics
                (trivParams.ogSaliency (stateAt trivParams 4)
                  (chosenAction trivParams 4)) c)
    ∧ sanity_check trivParams "result.csv"
        = ("results" ++ "/" ++ trivParams.game ++ "/" ++ "result.csv",
           zip5 (sanity_check_run trivParams).model_list
             (sanity_check_run trivParams).pearson_list
             (sanity_check_run trivParams).ssim_list
             (sanity_check_run trivParams).spearman_list
             (sanity_check_run trivParams).action_list) :=
  c7_records trivParams "result.csv" 4 (by omega) (by omega)

/-- Claim C8: `check_models` inspects layers 1, 2, 3, 5 and 6 and only
prints; given that the initializer draw differs from the predecessor's
weights at the targeted layer, its output shows unequal weights exactly
at that layer and equal weights at every other checked layer, and for
any two models whatsoever it returns the same five console lines rather
than raising. -/
theorem c8_check_never_raises (m : KModel) (f : Fin 5 → LayerWeights) (k : Nat)
    (h1 : 1 ≤ k) (h5 : k ≤ 5)
    (hdiff : f ⟨k - 1, by omega⟩ ≠ variantChain m f (k - 1) (targetLayer k)) :
    ((check_models (variantChain m f k) (variantChain m f (k - 1))).map Prod.fst
        = [1, 2, 3, 5, 6])
    ∧ (∀ i b1 b2,
        (i, b1, b2) ∈ check_models (variantChain m f k) (variantChain m f (k - 1)) →
        ((b1 = true ∧ b2 = true) ↔ i ≠ targetLayer k))
    ∧ (∀ a b : KModel, (check_models a b).map Prod.fst = [1, 2, 3, 5, 6]) := by
  refine ⟨rfl, ?_, fun a b => rfl⟩
  intro i b1 b2 hmem
  rw [check_models_eq] at hmem
  simp only [List.mem_cons, List.not_mem_nil, or_false, Prod.mk.injEq] at hmem
  rcases hmem with ⟨rfl, rfl, rfl⟩ | ⟨rfl, rfl, rfl⟩ | ⟨rfl, rfl, rfl⟩
    | ⟨rfl, rfl, rfl⟩ | ⟨rfl, rfl, rfl⟩ <;>
  exact check_entry_iff m f k h1 h5 hdiff _

/-- Closed instance of `c8_check_never_raises`. -/
theorem c8_witness :
    ((check_models (variantChain trivModel trivFresh 1)
        (variantChain trivModel trivFresh 0)).map Prod.fst = [1, 2, 3, 5, 6])
    ∧ (∀ i b1 b2,
        (i, b1, b2) ∈ check_models (variantChain trivModel trivFresh 1)
            (variantChain trivModel trivFresh 0) →
        ((b1 = true ∧ b2 = true) ↔ i ≠ targetLayer 1))
    ∧ (∀ a b : KModel, (check_models a b).map Prod.fst = [1, 2, 3, 5, 6]) :=
  c8_check_never_raises trivModel trivFresh 1 (by omega) (by omega) (by decide)

/-- Claim C9: normalization is comparison-time only: the store-passing
embeddings of `normalise_image` and `calc_sim` leave every existing
array unchanged (fresh arrays are allocated instead), the store-passing
`calc_sim` computes exactly the scores of the pure one, and within one
policy-driven step all seven appended scores are computed against the
one map `og_saliency_map` of that step. -/
theorem c9_no_mutation {σ μ Msk : Type} (p : RunParams σ μ Msk) (M : Metrics)
    (s : Store) (lr rr : Ref) (ps ss sp : List ℚ) (j i : Nat)
    (hj : j < s.length) (hrr : rr < s.length) (h4 : 4 ≤ i) (hi : i < 1001) :
    readRef (normalise_image_st s lr).1 j = readRef s j
    ∧ readRef (calc_sim_st M s lr rr ps ss sp).1 j = readRef s j
    ∧ (calc_sim_st M s lr rr ps ss sp).2
        = calc_sim M (readRef s lr) (readRef s rr) ps ss sp
    ∧ (runN p (i + 1)).pearson_list
        = (runN p i).pearson_list
          ++ (candMapsOf p (stateAt p i) (chosenAction p i) i).map
              (fun c => pearsonScore p.metrics
                (p.ogSaliency (stateAt p i) (chosenAction p i)) c) := by
  refine ⟨normalise_image_st_frame s lr j hj,
    calc_sim_st_frame M s lr rr ps ss sp j hj,
    calc_sim_st_coherent M s lr rr ps ss sp hrr, ?_⟩
  rw [runN_succ]
  unfold loopBody
  rw [if_neg (by omega)]
  exact policyStep_pearson p i (runN p i)

/-- Closed instance of `c9_no_mutation`. -/
theorem c9_witness :
    readRef (normalise_image_st [[(1 : ℚ), 2], [3]] 0).1 0 = readRef [[(1 : ℚ), 2], [3]] 0
    ∧ readRef (calc_sim_st trivMetrics [[(1 : ℚ), 2], [3]] 0 1 [] [] []).1 0
        = readRef [[(1 : ℚ), 2], [3]] 0
    ∧ (calc_sim_st trivMetrics [[(1 : ℚ), 2], [3]] 0 1 [] [] []).2
        = calc_sim trivMetrics (readRef [[(1 : ℚ), 2], [3]] 0)
            (readRef [[(1 : ℚ), 2], [3]] 1) [] [] []
    ∧ (runN trivParams 5).pearson_list
        = (runN trivParams 4).pearson_list
          ++ (candMapsOf trivParams (stateAt trivParams 4) (chosenAction trivParams 4)
                4).map
              (fun c => pearsonScore trivParams.metrics
                (trivParams.ogSaliency (stateAt trivParams 4)
                  (chosenAction trivParams 4)) c) :=
  c9_no_mutation trivParams trivMetrics [[(1 : ℚ), 2], [3]] 0 1 [] [] [] 0 4
    (by decide) (by decide) (by omega) (by omega)

/-- Claim C10: after every comparator the five accumulator columns have
equal length (each comparator appends exactly one element to each), so
in the final table row `i` carries `rand_layer = i % 7 + 1` and any two
rows of the same step carry the same action. -/
theorem c10_alignment {σ μ Msk : Type} (p : RunParams σ μ Msk) (M : Metrics)
    (idx lbl act : Nat) (fr : μ) (og cand : List ℚ) (s : LoopState σ μ Msk)
    (i j : Nat) (hi : i < 6979) (hj : j < 6979) (hij : i / 7 = j / 7) :
    (∀ n : Nat,
      (runN p n).pearson_list.length = 7 * (n - 4)
      ∧ (runN p n).ssim_list.length = 7 * (n - 4)
      ∧ (runN p n).spearman_list.length = 7 * (n - 4)
      ∧ (runN p n).model_list.length = 7 * (n - 4)
      ∧ (runN p n).action_list.length = 7 * (n - 4))
    ∧ ((comparatorBlock M idx fr act lbl og cand s).pearson_list.length
          = s.pearson_list.length + 1
      ∧ (comparatorBlock M idx fr act lbl og cand s).ssim_list.length
          = s.ssim_list.length + 1
      ∧ (comparatorBlock M idx fr act lbl og cand s).spearman_list.length
          = s.spearman_list.length + 1
      ∧ (comparatorBlock M idx fr act lbl og cand s).model_list.length
          = s.model_list.length + 1
      ∧ (comparatorBlock M idx fr act lbl og cand s).action_list.length
          = s.action_list.length + 1)
    ∧ ((resultRows (sanity_check_run p))[i]?).map (fun r => r.rand_layer)
        = some (i % 7 + 1)
    ∧ ((resultRows (sanity_check_run p))[i]?).map (fun r => r.action)
        = ((resultRows (sanity_check_run p))[j]?).map (fun r => r.action) := by
  obtain ⟨l1, l2, l3, l4, l5⟩ := lists_length p 1001
  have hzi := zip5_get (runN p 1001).model_list (runN p 1001).pearson_list
    (runN p 1001).ssim_list (runN p 1001).spearman_list (runN p 1001).action_list i
    (by omega) (by omega) (by omega) (by omega)
  have hzj := zip5_get (runN p 1001).model_list (runN p 1001).pearson_list
    (runN p 1001).ssim_list (runN p 1001).spearman_list (runN p 1001).action_list j
    (by omega) (by omega) (by omega) (by omega)
  refine ⟨fun n => lists_length p n, ?_, ?_, ?_⟩
  · refine ⟨?_, ?_, ?_, ?_, ?_⟩ <;>
      simp [comparatorBlock_pearson, comparatorBlock_ssim, comparatorBlock_spearman,
        comparatorBlock_model, comparatorBlock_action]
  · exact hzi.1.trans (model_list_get p i hi)
  · rw [show resultRows (sanity_check_run p)
        = zip5 (runN p 1001).model_list (runN p 1001).pearson_list
            (runN p 1001).ssim_list (runN p 1001).spearman_list
            (runN p 1001).action_list from rfl]
    rw [hzi.2, hzj.2, action_list_get p i hi, action_list_get p j hj, hij]

/-- Closed instance of `c10_alignment`. -/
theorem c10_witness :
    (∀ n : Nat,
      (runN trivParams n).pearson_list.length = 7 * (n - 4)
      ∧ (runN trivParams n).ssim_list.length = 7 * (n - 4)
      ∧ (runN trivParams n).spearman_list.length = 7 * (n - 4)
      ∧ (runN trivParams n).model_list.length = 7 * (n - 4)
      ∧ (runN trivParams n).action_list.length = 7 * (n - 4))
    ∧ ((comparatorBlock trivMetrics 0 () 0 1 [] [] (initState trivParams)).pearson_list.length
          = (initState trivParams).pearson_list.length + 1
      ∧ (comparatorBlock trivMetrics 0 () 0 1 [] [] (initState trivParams)).ssim_list.length
          = (initState trivParams).ssim_list.length + 1
      ∧ (comparatorBlock trivMetrics 0 () 0 1 [] [] (initState trivParams)).spearman_list.length
          = (initState trivParams).spearman_list.length + 1
      ∧ (comparatorBlock trivMetrics 0 () 0 1 [] [] (initState trivParams)).model_list.length
          = (initState trivParams).model_list.length + 1
      ∧ (comparatorBlock trivMetrics 0 () 0 1 [] [] (initState trivParams)).action_list.length
          = (initState trivParams).action_list.length + 1)
    ∧ ((resultRows (sanity_check_run trivParams))[0]?).map (fun r => r.rand_layer)
        = some (0 % 7 + 1)
    ∧ ((resultRows (sanity_check_run trivParams))[0]?).map (fun r => r.action)
        = ((resultRows (sanity_check_run trivParams))[1]?).map (fun r => r.action) :=
  c10_alignment trivParams trivMetrics 0 1 0 () [] [] (initState trivParams) 0 1
    (by omega) (by omega) (by omega)

end SanityChecks
